import Mathlib

/-!
# Verification of the himalayanfresh backend delivery-tracking core

A shallow embedding of the polyline codec (`src/tools/decode_polyline.js`),
the route densifier (`generateHighResolutionRoute` in the driver simulator),
and the tracking record store (the tracking router), together with theorems
settling the specification's claims.

Embedding conventions:
* JavaScript numbers are exact rationals (`ℚ`); the 32-bit coercions that
  JavaScript's bitwise operators perform are made explicit on `ℤ`.
* Strings of character codes are `List ℕ` (UTF-16 code units, as produced by
  `String.fromCharCode` and read by `charCodeAt`).
* Dates are rationals counting milliseconds since the epoch; `setDate(+k)`
  is day arithmetic in a DST-free calendar, i.e. `+ k * 86400000` ms.
* The haversine helpers (`calculateDistance` / `calculateDistanceMeters`)
  compute with transcendental functions; they enter the embedding as an
  explicit distance-function parameter `dist`, so every theorem quantifies
  over (or is instantiated at) the distance function.
-/

namespace HF

/-! ## JavaScript 32-bit integer primitives -/

/-- The unsigned 32-bit pattern of an integer (JavaScript `ToUint32`). -/
def u32 (n : ℤ) : ℕ := (n % (2 ^ 32 : ℤ)).toNat

/-- Reinterpret an unsigned 32-bit pattern as a signed 32-bit integer. -/
def i32 (u : ℕ) : ℤ := if u < 2 ^ 31 then (u : ℤ) else (u : ℤ) - 2 ^ 32

/-- JavaScript `ToInt32`. -/
def toInt32 (n : ℤ) : ℤ := i32 (u32 n)

/-- JavaScript `ToUint16`, applied by `String.fromCharCode` to its argument. -/
def toUint16 (n : ℤ) : ℕ := (n % (65536 : ℤ)).toNat

/-- JavaScript `a & b` (both operands coerced to 32-bit signed integers). -/
def jsAnd (a b : ℤ) : ℤ := i32 (Nat.land (u32 a) (u32 b))

/-- JavaScript `a | b` (both operands coerced to 32-bit signed integers). -/
def jsOr (a b : ℤ) : ℤ := i32 (Nat.lor (u32 a) (u32 b))

/-- JavaScript `a << b`: the shift count is taken modulo 32 and the result
wraps to a 32-bit signed integer. -/
def jsShl (a b : ℤ) : ℤ := i32 ((u32 a * 2 ^ (u32 b % 32)) % 2 ^ 32)

/-- JavaScript `a >> b` (sign-propagating right shift): floor division of the
32-bit signed value by `2 ^ (shift % 32)`. -/
def jsShr (a b : ℤ) : ℤ := Int.fdiv (toInt32 a) (2 ^ (u32 b % 32))

/-- JavaScript `~a`. -/
def jsNot (a : ℤ) : ℤ := toInt32 (-a - 1)

/-- JavaScript `Math.round` (rounds half-up). -/
def jsRound (q : ℚ) : ℤ := ⌊q + 1 / 2⌋

/-- JavaScript `Math.ceil`. -/
def jsCeil (q : ℚ) : ℤ := ⌈q⌉

/-- A `{lat, lng}` coordinate pair, as used by the polyline codec and the
route densifier. -/
@[ext] structure Pt where
  lat : ℚ
  lng : ℚ
deriving DecidableEq

/-! ## Polyline codec — `src/tools/decode_polyline.js` -/

/-- One chunk-reading loop of `decodePolyline` (the inner
`do { b = encoded.charCodeAt(index++) - 63; result |= (b & 0x1f) << shift;
shift += 5; } while (b >= 0x20)`).  Returns the accumulated `result` and the
remaining character codes.  `charCodeAt` past the end of the string yields
`NaN`, for which `NaN & 0x1f` is `0` and `NaN >= 0x20` is false, so a
truncated stream contributes nothing further and the loop exits. -/
def decodeChunk : List ℕ → ℤ → ℤ → ℤ × List ℕ
  | [], _, result => (jsOr result 0, [])
  | c :: rest, shift, result =>
    let b : ℤ := (c : ℤ) - 63
    let result' := jsOr result (jsShl (jsAnd b 31) shift)
    if 32 ≤ b then decodeChunk rest (shift + 5) result' else (result', rest)

/-- The delta recovered from one chunk:
`(result & 1) ? ~(result >> 1) : (result >> 1)`. -/
def decodeDelta (result : ℤ) : ℤ :=
  if jsAnd result 1 ≠ 0 then jsNot (jsShr result 1) else jsShr result 1

theorem decodeChunk_length_le (l : List ℕ) :
    ∀ shift result : ℤ, ((decodeChunk l shift result).2).length ≤ l.length := by
  induction l with
  | nil => intro shift result; simp [decodeChunk]
  | cons c rest ih =>
    intro shift result
    simp only [decodeChunk]
    split
    · exact le_trans (ih _ _) (Nat.le_succ _)
    · simp

theorem decodeChunk_cons_length (c : ℕ) (cs : List ℕ) (shift result : ℤ) :
    ((decodeChunk (c :: cs) shift result).2).length ≤ cs.length := by
  simp only [decodeChunk]
  split
  · exact decodeChunk_length_le cs _ _
  · simp

/-- The outer `while (index < encoded.length)` loop of `decodePolyline`,
carrying the running `lat` and `lng` accumulators.  Each iteration reads a
latitude chunk and a longitude chunk and pushes `{lat: lat / 1e5,
lng: lng / 1e5}`. -/
def decodePolyAux : List ℕ → ℤ → ℤ → List Pt
  | [], _, _ => []
  | c :: cs, lat, lng =>
    let r1 := decodeChunk (c :: cs) 0 0
    let lat' := lat + decodeDelta r1.1
    let r2 := decodeChunk r1.2 0 0
    let lng' := lng + decodeDelta r2.1
    ⟨(lat' : ℚ) / 100000, (lng' : ℚ) / 100000⟩ :: decodePolyAux r2.2 lat' lng'
termination_by l => l.length
decreasing_by
  simp_wf
  exact lt_of_le_of_lt
    (le_trans (decodeChunk_length_le _ _ _) (decodeChunk_cons_length _ _ 0 0))
    (Nat.lt_succ_self _)

/-- `decodePolyline(encoded)`: the empty string is falsy and yields `[]`,
which coincides with running the loop on no characters. -/
def decodePolyline (encoded : List ℕ) : List Pt := decodePolyAux encoded 0 0

/-- Fuel-bounded variant of the decoder's outer loop, used to state that
decoding terminates within `length` iterations (each outer iteration consumes
at least one character). -/
def decodePolyFuel : ℕ → List ℕ → ℤ → ℤ → Option (List Pt)
  | _, [], _, _ => some []
  | 0, _ :: _, _, _ => none
  | fuel + 1, c :: cs, lat, lng =>
    let r1 := decodeChunk (c :: cs) 0 0
    let lat' := lat + decodeDelta r1.1
    let r2 := decodeChunk r1.2 0 0
    let lng' := lng + decodeDelta r2.1
    (decodePolyFuel fuel r2.2 lat' lng').map
      (fun tail => ⟨(lat' : ℚ) / 100000, (lng' : ℚ) / 100000⟩ :: tail)

theorem jsShr_five_toNat_lt (s : ℤ) (h : 32 ≤ s) : (jsShr s 5).toNat < s.toNat := by
  have h5 : u32 5 % 32 = 5 := by decide
  have hfd : Int.fdiv (toInt32 s) (2 ^ 5) = toInt32 s / 2 ^ 5 :=
    Int.fdiv_eq_ediv _ (by norm_num)
  rw [jsShr, h5, hfd, toInt32, i32, u32]
  split <;> omega

/-- The `while (sgn_num >= 0x20)` loop of `encodeNumber`, emitting
continuation chunks and finishing with `sgn_num + 63`. -/
def encodeNumberLoop (sgn : ℤ) : List ℕ :=
  if h : 32 ≤ sgn then
    toUint16 (jsOr 32 (jsAnd sgn 31) + 63) :: encodeNumberLoop (jsShr sgn 5)
  else
    [toUint16 (sgn + 63)]
termination_by sgn.toNat
decreasing_by exact jsShr_five_toNat_lt sgn h

/-- `encodeNumber(num)`: zig-zag (`num << 1`, complemented when negative)
followed by base-32 chunking. -/
def encodeNumber (num : ℤ) : List ℕ :=
  let sgn := jsShl num 1
  encodeNumberLoop (if num < 0 then jsNot sgn else sgn)

/-- The loop of `encodePolyline`, carrying `prevLat`/`prevLng` (the previous
point's rounded coordinates). -/
def encodePolyAux (prevLat prevLng : ℤ) : List Pt → List ℕ
  | [] => []
  | point :: rest =>
    let lat := jsRound (point.lat * 100000)
    let lng := jsRound (point.lng * 100000)
    encodeNumber (lat - prevLat) ++ encodeNumber (lng - prevLng) ++
      encodePolyAux lat lng rest

/-- `encodePolyline(coordinates)`: an empty input yields the empty string. -/
def encodePolyline (coordinates : List Pt) : List ℕ := encodePolyAux 0 0 coordinates

/-! ### Arithmetic facts about the 32-bit primitives, in the ranges where the
codec stays clear of wrap-around -/

theorem toInt32_eq (n : ℤ) (h0 : -(2 ^ 31) ≤ n) (h1 : n < 2 ^ 31) : toInt32 n = n := by
  rw [toInt32, i32, u32]
  split <;> omega

theorem toUint16_cast (n : ℤ) (h0 : 0 ≤ n) (h1 : n < 65536) : ((toUint16 n : ℕ) : ℤ) = n := by
  rw [toUint16]
  omega

theorem jsAnd_31 (b : ℤ) (h0 : 0 ≤ b) (h1 : b < 2 ^ 32) : jsAnd b 31 = b % 32 := by
  have h31 : u32 31 = 31 := by decide
  rw [jsAnd, h31]
  have hland : Nat.land (u32 b) 31 = u32 b % 32 := by
    have := Nat.and_pow_two_sub_one_eq_mod (u32 b) 5
    simpa using this
  rw [hland, i32, u32]
  split <;> omega

theorem jsAnd_1 (b : ℤ) (h0 : 0 ≤ b) (h1 : b < 2 ^ 32) : jsAnd b 1 = b % 2 := by
  have h1' : u32 1 = 1 := by decide
  rw [jsAnd, h1']
  have hland : Nat.land (u32 b) 1 = u32 b % 2 := Nat.and_one_is_mod (u32 b)
  rw [hland, i32, u32]
  split <;> omega

theorem jsOr_add (a c : ℤ) (m : ℕ) (ha0 : 0 ≤ a) (hc0 : 0 ≤ c) (ha : a < 2 ^ m)
    (hsum : a + c * 2 ^ m < 2 ^ 31) : jsOr a (c * 2 ^ m) = a + c * 2 ^ m := by
  obtain ⟨an, rfl⟩ := Int.eq_ofNat_of_zero_le ha0
  obtain ⟨cn, rfl⟩ := Int.eq_ofNat_of_zero_le hc0
  have h2m : ((2 ^ m : ℕ) : ℤ) = 2 ^ m := by push_cast; ring
  have hlink : ((cn * 2 ^ m : ℕ) : ℤ) = (cn : ℤ) * 2 ^ m := by push_cast; ring
  have hu1 : u32 (an : ℤ) = an := by rw [u32]; omega
  have hu2 : u32 ((cn : ℤ) * 2 ^ m) = cn * 2 ^ m := by rw [u32]; omega
  have hkey : 2 ^ m * cn + an = 2 ^ m * cn ||| an :=
    Nat.mul_add_lt_is_or (by omega) cn
  have hkey' : 2 ^ m * cn + an = Nat.lor (2 ^ m * cn) an := hkey
  have hlor : Nat.lor an (cn * 2 ^ m) = an + cn * 2 ^ m := by
    have hcomm : Nat.lor an (cn * 2 ^ m) = Nat.lor (cn * 2 ^ m) an := Nat.lor_comm an _
    rw [hcomm, Nat.mul_comm cn (2 ^ m)]
    omega
  rw [jsOr, hu1, hu2, hlor, i32]
  split <;> omega

theorem jsOr_zero (r : ℤ) (h0 : 0 ≤ r) (h1 : r < 2 ^ 31) : jsOr r 0 = r := by
  have := jsOr_add r 0 31 h0 (le_refl 0) h1 (by omega)
  simpa using this

theorem jsShl_small (v : ℤ) (k : ℕ) (hv0 : 0 ≤ v) (hk : k < 32)
    (hb : v * 2 ^ k < 2 ^ 31) : jsShl v (k : ℤ) = v * 2 ^ k := by
  have hp : (0 : ℤ) < 2 ^ k := by positivity
  have hp1 : (1 : ℤ) ≤ 2 ^ k := hp
  have hv31 : v < 2 ^ 31 := by nlinarith
  have hu1 : u32 v = v.toNat := by rw [u32]; omega
  have hu2 : u32 (k : ℤ) % 32 = k := by
    rw [u32]
    omega
  rw [jsShl, hu1, hu2]
  have hvk : v.toNat * 2 ^ k < 2 ^ 31 := by
    have : ((v.toNat * 2 ^ k : ℕ) : ℤ) = v * 2 ^ k := by
      push_cast; rw [Int.toNat_of_nonneg hv0]
    omega
  have hmod : v.toNat * 2 ^ k % 2 ^ 32 = v.toNat * 2 ^ k := by
    apply Nat.mod_eq_of_lt
    calc v.toNat * 2 ^ k < 2 ^ 31 := hvk
      _ < 2 ^ 32 := by norm_num
  rw [hmod, i32]
  have : ((v.toNat * 2 ^ k : ℕ) : ℤ) = v * 2 ^ k := by
    push_cast; rw [Int.toNat_of_nonneg hv0]
  split <;> omega

theorem jsShl_zero (b : ℤ) : jsShl 0 b = 0 := by
  have h0 : u32 0 = 0 := by decide
  rw [jsShl, h0]
  simp [i32]

theorem jsShl_one (a : ℤ) : jsShl a 1 = toInt32 (2 * a) := by
  have h1 : u32 1 % 32 = 1 := by decide
  rw [jsShl, h1, toInt32]
  congr 1
  rw [u32, u32]
  omega

theorem jsShr_five (s : ℤ) (h0 : 0 ≤ s) (h1 : s < 2 ^ 31) : jsShr s 5 = s / 32 := by
  have h5 : u32 5 % 32 = 5 := by decide
  rw [jsShr, h5, toInt32_eq s (by omega) h1, Int.fdiv_eq_ediv _ (by norm_num)]
  norm_num

theorem jsShr_one (s : ℤ) (h0 : 0 ≤ s) (h1 : s < 2 ^ 31) : jsShr s 1 = s / 2 := by
  have hu : u32 1 % 32 = 1 := by decide
  rw [jsShr, hu, toInt32_eq s (by omega) h1, Int.fdiv_eq_ediv _ (by norm_num)]
  norm_num

theorem jsNot_eq (a : ℤ) (h0 : -(2 ^ 31) ≤ -a - 1) (h1 : -a - 1 < 2 ^ 31) :
    jsNot a = -a - 1 := by
  rw [jsNot, toInt32_eq _ h0 h1]

/-! ### Round-trip of a single number through `encodeNumber`/`decodeChunk` -/

/-- The zig-zag transform that `encodeNumber` applies before chunking
(proof-side abbreviation; in range it agrees with `num << 1` /
`~(num << 1)`). -/
def zigzag (num : ℤ) : ℤ := if num < 0 then -2 * num - 1 else 2 * num

theorem zigzag_nonneg (num : ℤ) : 0 ≤ zigzag num := by
  rw [zigzag]; split <;> omega

theorem zigzag_lt (num : ℤ) (h : num.natAbs < 2 ^ 30) : zigzag num < 2 ^ 31 := by
  rw [zigzag]; split <;> omega

theorem encodeNumber_eq (num : ℤ) (h : num.natAbs < 2 ^ 30) :
    encodeNumber num = encodeNumberLoop (zigzag num) := by
  rw [encodeNumber, zigzag, jsShl_one]
  by_cases hn : num < 0
  · rw [if_pos hn, if_pos hn,
      toInt32_eq (2 * num) (by omega) (by omega),
      jsNot_eq (2 * num) (by omega) (by omega)]
    ring_nf
  · rw [if_neg hn, if_neg hn, toInt32_eq (2 * num) (by omega) (by omega)]

theorem decodeDelta_zigzag (num : ℤ) (h : num.natAbs < 2 ^ 30) :
    decodeDelta (zigzag num) = num := by
  rw [decodeDelta, zigzag]
  by_cases hn : num < 0
  · rw [if_pos hn]
    have hodd : jsAnd (-2 * num - 1) 1 = 1 := by
      rw [jsAnd_1 _ (by omega) (by omega)]
      omega
    rw [if_pos (by rw [hodd]; norm_num),
      jsShr_one _ (by omega) (by omega)]
    have hdiv : (-2 * num - 1) / 2 = -num - 1 := by omega
    rw [hdiv, jsNot_eq _ (by omega) (by omega)]
    ring
  · rw [if_neg hn]
    have heven : jsAnd (2 * num) 1 = 0 := by
      rw [jsAnd_1 _ (by omega) (by omega)]
      omega
    rw [if_neg (by rw [heven]; norm_num),
      jsShr_one _ (by omega) (by omega)]
    omega

theorem encodeNumberLoop_ne_nil (s : ℤ) : encodeNumberLoop s ≠ [] := by
  rw [encodeNumberLoop]
  split <;> simp

theorem encodeNumber_ne_nil (num : ℤ) : encodeNumber num ≠ [] := by
  rw [encodeNumber]
  exact encodeNumberLoop_ne_nil _

theorem decodeChunk_cons (c : ℕ) (rest : List ℕ) (shift result : ℤ) :
    decodeChunk (c :: rest) shift result =
      if 32 ≤ (c : ℤ) - 63
      then decodeChunk rest (shift + 5) (jsOr result (jsShl (jsAnd ((c : ℤ) - 63) 31) shift))
      else (jsOr result (jsShl (jsAnd ((c : ℤ) - 63) 31) shift), rest) := rfl

theorem decodeChunk_encodeLoop (s : ℤ) :
    ∀ (k : ℕ) (result : ℤ) (rest : List ℕ),
      0 ≤ s → 0 ≤ result → result < 2 ^ (5 * k) →
      s * 2 ^ (5 * k) + result < 2 ^ 31 →
      decodeChunk (encodeNumberLoop s ++ rest) (5 * (k : ℤ)) result
        = (result + s * 2 ^ (5 * k), rest) := by
  induction s using encodeNumberLoop.induct with
  | case1 s h ih =>
    intro k result rest hs hr0 hrk hbound
    have hP : (0 : ℤ) < 2 ^ (5 * k) := by positivity
    have hsP : s ≤ s * 2 ^ (5 * k) := le_mul_of_one_le_right hs (by omega)
    have hs31 : s < 2 ^ 31 := by omega
    have hsPP : 2 ^ (5 * k) ≤ s * 2 ^ (5 * k) :=
      le_mul_of_one_le_left (le_of_lt hP) (by omega)
    have h5k30 : 5 * k ≤ 30 := by
      by_contra hcon
      push_neg at hcon
      have h31 : (2 : ℤ) ^ 31 ≤ 2 ^ (5 * k) := pow_le_pow_right (by norm_num) (by omega)
      omega
    have hm0 : 0 ≤ s % 32 := Int.emod_nonneg s (by norm_num)
    have hm1 : s % 32 < 32 := Int.emod_lt_of_pos s (by norm_num)
    have hdm : 32 * (s / 32) + s % 32 = s := Int.ediv_add_emod s 32
    have hq0 : 0 ≤ s / 32 := Int.ediv_nonneg hs (by norm_num)
    have hand : jsAnd s 31 = s % 32 := jsAnd_31 s hs (by omega)
    have hor : jsOr 32 (s % 32) = 32 + s % 32 := by
      have hcm : jsOr (s % 32) (1 * 2 ^ 5) = s % 32 + 1 * 2 ^ 5 :=
        jsOr_add (s % 32) 1 5 hm0 (by norm_num) (by omega) (by omega)
      have hco : jsOr 32 (s % 32) = jsOr (s % 32) 32 := by
        rw [jsOr, jsOr]
        congr 1
        exact Nat.lor_comm _ _
      rw [hco]
      have h32 : jsOr (s % 32) 32 = jsOr (s % 32) (1 * 2 ^ 5) := by norm_num
      rw [h32, hcm]
      ring
    have hcode : ((toUint16 (jsOr 32 (jsAnd s 31) + 63) : ℕ) : ℤ) = 95 + s % 32 := by
      rw [hand, hor, toUint16]
      omega
    rw [encodeNumberLoop, dif_pos h, List.cons_append, decodeChunk_cons, hcode]
    have hb : (95 : ℤ) + s % 32 - 63 = 32 + s % 32 := by ring
    rw [hb, if_pos (by omega)]
    have hand2 : jsAnd (32 + s % 32) 31 = s % 32 := by
      rw [jsAnd_31 _ (by omega) (by omega)]
      omega
    have hshiftc : ((5 * k : ℕ) : ℤ) = 5 * (k : ℤ) := by push_cast; ring
    have hms : s % 32 ≤ s := by omega
    have hmul : s % 32 * 2 ^ (5 * k) ≤ s * 2 ^ (5 * k) :=
      mul_le_mul_of_nonneg_right hms (le_of_lt hP)
    have hshl : jsShl (s % 32) (5 * (k : ℤ)) = s % 32 * 2 ^ (5 * k) := by
      rw [← hshiftc]
      exact jsShl_small (s % 32) (5 * k) hm0 (by omega) (by omega)
    have horr : jsOr result (s % 32 * 2 ^ (5 * k)) = result + s % 32 * 2 ^ (5 * k) :=
      jsOr_add result (s % 32) (5 * k) hr0 hm0 hrk (by omega)
    rw [hand2, hshl, horr, jsShr_five s hs hs31]
    rw [jsShr_five s hs hs31] at ih
    have hpow : (2 : ℤ) ^ (5 * (k + 1)) = 32 * 2 ^ (5 * k) := by
      rw [show 5 * (k + 1) = 5 * k + 5 by ring, pow_add]
      ring
    have hm31 : s % 32 * 2 ^ (5 * k) ≤ 31 * 2 ^ (5 * k) :=
      mul_le_mul_of_nonneg_right (by omega) (le_of_lt hP)
    have hrk' : result + s % 32 * 2 ^ (5 * k) < 2 ^ (5 * (k + 1)) := by
      rw [hpow]
      omega
    have hkeyid : s / 32 * 2 ^ (5 * (k + 1)) + (result + s % 32 * 2 ^ (5 * k))
        = s * 2 ^ (5 * k) + result := by
      rw [hpow]
      linear_combination 2 ^ (5 * k) * hdm
    have hbound' : s / 32 * 2 ^ (5 * (k + 1)) + (result + s % 32 * 2 ^ (5 * k)) < 2 ^ 31 := by
      rw [hkeyid]
      omega
    have hX0 : 0 ≤ s % 32 * 2 ^ (5 * k) := mul_nonneg hm0 (le_of_lt hP)
    have hrec := ih (k + 1) (result + s % 32 * 2 ^ (5 * k)) rest hq0 (by omega) hrk' hbound'
    have hsh : 5 * (((k + 1) : ℕ) : ℤ) = 5 * (k : ℤ) + 5 := by push_cast; ring
    rw [hsh] at hrec
    rw [hrec]
    have : result + s % 32 * 2 ^ (5 * k) + s / 32 * 2 ^ (5 * (k + 1))
        = result + s * 2 ^ (5 * k) := by
      rw [hpow]
      linear_combination 2 ^ (5 * k) * hdm
    rw [this]
  | case2 s h =>
    intro k result rest hs hr0 hrk hbound
    push_neg at h
    rw [encodeNumberLoop, dif_neg (by omega), List.singleton_append, decodeChunk_cons]
    have hcode : ((toUint16 (s + 63) : ℕ) : ℤ) = s + 63 := by
      rw [toUint16]
      omega
    rw [hcode]
    have hb : s + 63 - 63 = s := by ring
    rw [hb, if_neg (by omega)]
    have hand : jsAnd s 31 = s := by
      rw [jsAnd_31 s hs (by omega)]
      omega
    rw [hand]
    by_cases hs0 : s = 0
    · subst hs0
      rw [jsShl_zero, jsOr_zero result hr0 (by omega)]
      norm_num
    · have hP : (0 : ℤ) < 2 ^ (5 * k) := by positivity
      have hsP : s ≤ s * 2 ^ (5 * k) := le_mul_of_one_le_right hs (by omega)
      have hsPP : 2 ^ (5 * k) ≤ s * 2 ^ (5 * k) :=
        le_mul_of_one_le_left (le_of_lt hP) (by omega)
      have h5k30 : 5 * k ≤ 30 := by
        by_contra hcon
        push_neg at hcon
        have h31 : (2 : ℤ) ^ 31 ≤ 2 ^ (5 * k) := pow_le_pow_right (by norm_num) (by omega)
        omega
      have hshiftc : ((5 * k : ℕ) : ℤ) = 5 * (k : ℤ) := by push_cast; ring
      have hshl : jsShl s (5 * (k : ℤ)) = s * 2 ^ (5 * k) := by
        rw [← hshiftc]
        exact jsShl_small s (5 * k) hs (by omega) (by omega)
      rw [hshl, jsOr_add result s (5 * k) hr0 hs hrk (by omega)]

theorem decodeChunk_encodeNumber (num : ℤ) (rest : List ℕ) (h : num.natAbs < 2 ^ 30) :
    decodeChunk (encodeNumber num ++ rest) 0 0 = (zigzag num, rest) := by
  rw [encodeNumber_eq num h]
  have hz0 := zigzag_nonneg num
  have hz1 := zigzag_lt num h
  have := decodeChunk_encodeLoop (zigzag num) 0 0 rest hz0 (le_refl 0) (by norm_num)
    (by simpa using hz1)
  simpa using this

/-! ### Round-trip of a whole point sequence -/

/-- The scaled-and-rounded integer form of one coordinate
(`Math.round(coord * 1e5)`). -/
def coordInt (q : ℚ) : ℤ := jsRound (q * 100000)

theorem jsRound_intCast (a : ℤ) : jsRound (a : ℚ) = a := by
  rw [jsRound]
  rw [show ((a : ℚ) + 1 / 2) = (1 / 2 : ℚ) + a by ring, Int.floor_add_int]
  norm_num

theorem decodePolyAux_cons (c : ℕ) (cs : List ℕ) (lat lng : ℤ) :
    decodePolyAux (c :: cs) lat lng =
      ⟨((lat + decodeDelta (decodeChunk (c :: cs) 0 0).1 : ℤ) : ℚ) / 100000,
       ((lng + decodeDelta (decodeChunk (decodeChunk (c :: cs) 0 0).2 0 0).1 : ℤ) : ℚ) / 100000⟩
      :: decodePolyAux (decodeChunk (decodeChunk (c :: cs) 0 0).2 0 0).2
           (lat + decodeDelta (decodeChunk (c :: cs) 0 0).1)
           (lng + decodeDelta (decodeChunk (decodeChunk (c :: cs) 0 0).2 0 0).1) := by
  rw [decodePolyAux]

theorem decode_encode_aux (pts : List Pt) :
    ∀ prevLat prevLng : ℤ,
      (∀ p ∈ pts, (coordInt p.lat).natAbs < 2 ^ 29 ∧ (coordInt p.lng).natAbs < 2 ^ 29) →
      prevLat.natAbs < 2 ^ 29 → prevLng.natAbs < 2 ^ 29 →
      decodePolyAux (encodePolyAux prevLat prevLng pts) prevLat prevLng
        = pts.map (fun p => ⟨(coordInt p.lat : ℚ) / 100000, (coordInt p.lng : ℚ) / 100000⟩) := by
  induction pts with
  | nil =>
    intro prevLat prevLng _ _ _
    rw [encodePolyAux]
    simp [decodePolyAux]
  | cons p ps ih =>
    intro prevLat prevLng hb hl hg
    have hp := hb p (by simp)
    have hps : ∀ q ∈ ps, (coordInt q.lat).natAbs < 2 ^ 29 ∧ (coordInt q.lng).natAbs < 2 ^ 29 :=
      fun q hq => hb q (by simp [hq])
    have hfold : ∀ q : ℚ, jsRound (q * 100000) = coordInt q := fun _ => rfl
    rw [encodePolyAux]
    rw [hfold p.lat, hfold p.lng, List.append_assoc]
    set dla := coordInt p.lat - prevLat with hdla
    set dlg := coordInt p.lng - prevLng with hdlg
    set T := encodePolyAux (coordInt p.lat) (coordInt p.lng) ps with hT
    have hdla30 : dla.natAbs < 2 ^ 30 := by rw [hdla]; omega
    have hdlg30 : dlg.natAbs < 2 ^ 30 := by rw [hdlg]; omega
    have hnn : encodeNumber dla ++ (encodeNumber dlg ++ T) ≠ [] := by
      cases hE : encodeNumber dla with
      | nil => exact absurd hE (encodeNumber_ne_nil dla)
      | cons a as => simp [hE]
    obtain ⟨c, cs, hcc⟩ := List.exists_cons_of_ne_nil hnn
    rw [hcc, decodePolyAux_cons, ← hcc]
    rw [decodeChunk_encodeNumber dla _ hdla30]
    rw [decodeChunk_encodeNumber dlg _ hdlg30]
    rw [decodeDelta_zigzag dla hdla30, decodeDelta_zigzag dlg hdlg30]
    have hlat : prevLat + dla = coordInt p.lat := by rw [hdla]; ring
    have hlng : prevLng + dlg = coordInt p.lng := by rw [hdlg]; ring
    rw [hlat, hlng, ih (coordInt p.lat) (coordInt p.lng) hps (by omega) (by omega)]
    simp

theorem mem_zip_self {α : Type} :
    ∀ (l : List α) (pr : α × α), pr ∈ l.zip l → pr.1 = pr.2 := by
  intro l
  induction l with
  | nil => intro pr hpr; simp at hpr
  | cons a t ih =>
    intro pr hpr
    rw [List.zip_cons_cons] at hpr
    rcases List.mem_cons.mp hpr with h | h
    · rw [h]
    · exact ih pr h

/-- Complete round trip for bounded 5-decimal-place coordinates: decoding the
encoding returns the points themselves. -/
theorem decode_encode_id (points : List Pt)
    (h5 : ∀ p ∈ points,
      (∃ a : ℤ, a.natAbs < 2 ^ 29 ∧ p.lat = (a : ℚ) / 100000) ∧
      (∃ b : ℤ, b.natAbs < 2 ^ 29 ∧ p.lng = (b : ℚ) / 100000)) :
    decodePolyline (encodePolyline points) = points := by
  have hbounds : ∀ p ∈ points,
      (coordInt p.lat).natAbs < 2 ^ 29 ∧ (coordInt p.lng).natAbs < 2 ^ 29 := by
    intro p hp
    obtain ⟨⟨a, ha, hla⟩, ⟨b, hbb, hlb⟩⟩ := h5 p hp
    have hca : coordInt p.lat = a := by
      rw [coordInt, hla]
      have : (a : ℚ) / 100000 * 100000 = (a : ℚ) := by
        field_simp
      rw [this, jsRound_intCast]
    have hcb : coordInt p.lng = b := by
      rw [coordInt, hlb]
      have : (b : ℚ) / 100000 * 100000 = (b : ℚ) := by
        field_simp
      rw [this, jsRound_intCast]
    rw [hca, hcb]
    exact ⟨ha, hbb⟩
  rw [decodePolyline, encodePolyline,
    decode_encode_aux points 0 0 hbounds (by decide) (by decide)]
  have hmap : ∀ p ∈ points,
      (fun p : Pt => (⟨(coordInt p.lat : ℚ) / 100000, (coordInt p.lng : ℚ) / 100000⟩ : Pt)) p
        = id p := by
    intro p hp
    obtain ⟨⟨a, ha, hla⟩, ⟨b, hbb, hlb⟩⟩ := h5 p hp
    have hca : coordInt p.lat = a := by
      rw [coordInt, hla]
      have : (a : ℚ) / 100000 * 100000 = (a : ℚ) := by field_simp
      rw [this, jsRound_intCast]
    have hcb : coordInt p.lng = b := by
      rw [coordInt, hlb]
      have : (b : ℚ) / 100000 * 100000 = (b : ℚ) := by field_simp
      rw [this, jsRound_intCast]
    simp only [hca, hcb, id]
    ext
    · rw [hla]
    · rw [hlb]
  rw [List.map_congr_left hmap, List.map_id]

/-! ## Route densifier — `generateHighResolutionRoute` (driver simulator)

`calculateDistanceMeters` is the haversine distance computed with `sin`,
`cos`, `atan2` and `sqrt`; it is not exactly representable over `ℚ`, so it
enters as an explicit parameter `dist lat1 lng1 lat2 lng2`. -/

/-- `interpolatePoint(start, end, fraction)`. -/
def interpolatePoint (start stop : Pt) (fraction : ℚ) : Pt :=
  ⟨start.lat + (stop.lat - start.lat) * fraction,
   start.lng + (stop.lng - start.lng) * fraction⟩

/-- The scan of `getPointAtDistance` over consecutive segments, carrying the
target distance reduced by the accumulated distance so far.  Falling off the
end returns (a copy of) the final point. -/
def getPointAtDistanceAux (dist : ℚ → ℚ → ℚ → ℚ → ℚ) (targetDistance : ℚ) :
    Pt → List Pt → Pt
  | p, [] => p
  | p, q :: rest =>
    let segmentDistance := dist p.lat p.lng q.lat q.lng
    if targetDistance ≤ segmentDistance then
      let fraction := if 0 < segmentDistance then targetDistance / segmentDistance else 0
      interpolatePoint p q (min fraction 1)
    else getPointAtDistanceAux dist (targetDistance - segmentDistance) q rest

/-- `getPointAtDistance(routePoints, targetDistance)`; `undefined` (here
`none`) on an empty list, where the JavaScript indexes past the array. -/
def getPointAtDistance (dist : ℚ → ℚ → ℚ → ℚ → ℚ) (routePoints : List Pt)
    (targetDistance : ℚ) : Option Pt :=
  match routePoints with
  | [] => none
  | p :: rest => some (getPointAtDistanceAux dist targetDistance p rest)

/-- Total route distance: the sum of consecutive segment distances (the
`totalDistance` accumulation loop of `generateHighResolutionRoute`). -/
def routeDistance (dist : ℚ → ℚ → ℚ → ℚ → ℚ) : List Pt → ℚ
  | [] => 0
  | [_] => 0
  | p :: q :: rest => dist p.lat p.lng q.lat q.lng + routeDistance dist (q :: rest)

/-- `distancePerUpdate = speedMps * (updateIntervalMs / 1000)` where
`speedMps = speedKmh * 1000 / 3600` (the two `const`s at the head of
`generateHighResolutionRoute`). -/
def distancePerUpdate (speedKmh updateIntervalMs : ℚ) : ℚ :=
  speedKmh * 1000 / 3600 * (updateIntervalMs / 1000)

/-- `numPoints = Math.ceil(totalDistance / distancePerUpdate)`. -/
def numPoints (dist : ℚ → ℚ → ℚ → ℚ → ℚ) (routePoints : List Pt)
    (speedKmh updateIntervalMs : ℚ) : ℤ :=
  jsCeil (routeDistance dist routePoints / distancePerUpdate speedKmh updateIntervalMs)

/-- The `for (let i = 0; i <= numPoints; i++)` loop: interpolated points at
arc lengths `i * distancePerUpdate` (the `if (point)` check drops the
`undefined` an empty route would yield). -/
def highResPoints (dist : ℚ → ℚ → ℚ → ℚ → ℚ) (routePoints : List Pt)
    (speedKmh updateIntervalMs : ℚ) : List Pt :=
  (List.range (numPoints dist routePoints speedKmh updateIntervalMs + 1).toNat).filterMap
    (fun i : ℕ => getPointAtDistance dist routePoints
      ((i : ℚ) * distancePerUpdate speedKmh updateIntervalMs))

/-- `generateHighResolutionRoute(routePoints, speedKmh, updateIntervalMs)`:
degenerate inputs (fewer than 2 points) are returned unchanged; otherwise the
interpolation loop runs, and the exact final point is appended only when the
last generated point is missing or more than 1 metre away from it. -/
def generateHighResolutionRoute (dist : ℚ → ℚ → ℚ → ℚ → ℚ) (routePoints : List Pt)
    (speedKmh updateIntervalMs : ℚ) : List Pt :=
  if routePoints.length < 2 then routePoints
  else
    match (highResPoints dist routePoints speedKmh updateIntervalMs).getLast? with
    | none => highResPoints dist routePoints speedKmh updateIntervalMs
        ++ [routePoints.getLast?.getD ⟨0, 0⟩]
    | some lastGenerated =>
      if 1 < dist lastGenerated.lat lastGenerated.lng
          (routePoints.getLast?.getD ⟨0, 0⟩).lat (routePoints.getLast?.getD ⟨0, 0⟩).lng then
        highResPoints dist routePoints speedKmh updateIntervalMs
          ++ [routePoints.getLast?.getD ⟨0, 0⟩]
      else highResPoints dist routePoints speedKmh updateIntervalMs

theorem routeDistance_nonneg (dist : ℚ → ℚ → ℚ → ℚ → ℚ)
    (hd : ∀ a b c d, 0 ≤ dist a b c d) :
    ∀ l : List Pt, 0 ≤ routeDistance dist l := by
  intro l
  induction l with
  | nil => simp [routeDistance]
  | cons p rest ih =>
    cases rest with
    | nil => simp [routeDistance]
    | cons q rs =>
      rw [routeDistance]
      have := hd p.lat p.lng q.lat q.lng
      have h2 := ih
      positivity

/-- If every segment of a route has distance zero and the distance function
separates points, then all points of the route coincide with the head. -/
theorem routeDistance_zero_getLast (dist : ℚ → ℚ → ℚ → ℚ → ℚ)
    (hd : ∀ a b c d, 0 ≤ dist a b c d)
    (hsep : ∀ p q : Pt, dist p.lat p.lng q.lat q.lng = 0 → p = q) :
    ∀ (rest : List Pt) (p : Pt), routeDistance dist (p :: rest) = 0 →
      rest.getLastD p = p := by
  intro rest
  induction rest with
  | nil => intro p _; rfl
  | cons q rs ih =>
    intro p h0
    rw [routeDistance] at h0
    have hseg : 0 ≤ dist p.lat p.lng q.lat q.lng := hd _ _ _ _
    have htail : 0 ≤ routeDistance dist (q :: rs) := routeDistance_nonneg dist hd _
    have hseg0 : dist p.lat p.lng q.lat q.lng = 0 := by linarith
    have htail0 : routeDistance dist (q :: rs) = 0 := by linarith
    have hpq : p = q := hsep p q hseg0
    rw [List.getLastD_cons, ih q htail0, hpq]

/-- Past the end of the route, `getPointAtDistance` returns the final point
exactly. -/
theorem getPointAtDistanceAux_gt (dist : ℚ → ℚ → ℚ → ℚ → ℚ)
    (hd : ∀ a b c d, 0 ≤ dist a b c d) :
    ∀ (rest : List Pt) (p : Pt) (target : ℚ),
      routeDistance dist (p :: rest) < target →
      getPointAtDistanceAux dist target p rest = rest.getLastD p := by
  intro rest
  induction rest with
  | nil => intro p target _; rfl
  | cons q rs ih =>
    intro p target hgt
    rw [routeDistance] at hgt
    have htail : 0 ≤ routeDistance dist (q :: rs) := routeDistance_nonneg dist hd _
    rw [getPointAtDistanceAux]
    rw [if_neg (by
      simp only [not_le]
      linarith)]
    rw [List.getLastD_cons]
    exact ih q (target - dist p.lat p.lng q.lat q.lng) (by linarith)

/-- At exactly the total route distance, `getPointAtDistance` returns the
final point, provided the distance function is nonnegative and separates
points. -/
theorem getPointAtDistanceAux_eq (dist : ℚ → ℚ → ℚ → ℚ → ℚ)
    (hd : ∀ a b c d, 0 ≤ dist a b c d)
    (hsep : ∀ p q : Pt, dist p.lat p.lng q.lat q.lng = 0 → p = q) :
    ∀ (rest : List Pt) (p : Pt),
      getPointAtDistanceAux dist (routeDistance dist (p :: rest)) p rest
        = rest.getLastD p := by
  intro rest
  induction rest with
  | nil => intro p; rfl
  | cons q rs ih =>
    intro p
    have htail : 0 ≤ routeDistance dist (q :: rs) := routeDistance_nonneg dist hd _
    have hseg : 0 ≤ dist p.lat p.lng q.lat q.lng := hd _ _ _ _
    rw [getPointAtDistanceAux, routeDistance]
    by_cases hc : dist p.lat p.lng q.lat q.lng + routeDistance dist (q :: rs)
        ≤ dist p.lat p.lng q.lat q.lng
    · have htail0 : routeDistance dist (q :: rs) = 0 := by linarith
      rw [if_pos hc, List.getLastD_cons, routeDistance_zero_getLast dist hd hsep rs q htail0]
      by_cases hseg0 : 0 < dist p.lat p.lng q.lat q.lng
      · have hfrac : (dist p.lat p.lng q.lat q.lng + routeDistance dist (q :: rs))
            / dist p.lat p.lng q.lat q.lng = 1 := by
          rw [htail0, add_zero]
          field_simp
        rw [if_pos hseg0, hfrac]
        rw [interpolatePoint]
        ext <;> simp <;> ring
      · have hseg00 : dist p.lat p.lng q.lat q.lng = 0 := by linarith
        have hpq : p = q := hsep p q hseg00
        rw [if_neg hseg0, interpolatePoint]
        have h01 : min (0 : ℚ) 1 = 0 := by norm_num
        rw [h01, hpq]
        ext <;> simp
    · rw [if_neg hc]
      have harith : dist p.lat p.lng q.lat q.lng + routeDistance dist (q :: rs)
          - dist p.lat p.lng q.lat q.lng = routeDistance dist (q :: rs) := by ring
      rw [harith, List.getLastD_cons]
      exact ih q

theorem filterMap_some_map {α β : Type} (g : α → β) :
    ∀ l : List α, l.filterMap (fun a => some (g a)) = l.map g := by
  intro l
  induction l with
  | nil => rfl
  | cons a t ih => simp [List.filterMap_cons, ih]

theorem getLast?_cons_getLastD {α : Type} :
    ∀ (rest : List α) (p : α), (p :: rest).getLast? = some (rest.getLastD p) := by
  intro rest
  induction rest with
  | nil => intro p; rfl
  | cons q rs ih =>
    intro p
    rw [List.getLast?_cons_cons, ih q, List.getLastD_cons]

/-! ## Tracking record store — the tracking router (`src/unnamed/part_000`)

Times and dates are rationals counting milliseconds since the epoch;
`setDate(getDate() + k)` is modelled as `+ k` days in a DST-free calendar.
The `calculateDistance(lat1, lng1, lat2, lng2)` haversine helper again enters
as an explicit distance-function parameter `dist`. -/

/-- The `currentLocation` subdocument (`latitude`/`longitude` have no schema
default, so they may be absent). -/
structure CurrentLocation where
  latitude : Option ℚ
  longitude : Option ℚ
  heading : ℚ
  speed : ℚ
  accuracy : ℚ
deriving DecidableEq

/-- One `history` entry `{latitude, longitude, timestamp}`. -/
structure HistoryEntry where
  latitude : ℚ
  longitude : ℚ
  timestamp : ℚ
deriving DecidableEq

/-- The `route` subdocument. -/
structure Route where
  polyline : Option String
  points : List Pt
  distance : Option ℚ
  duration : Option ℚ
  eta : Option ℚ
deriving DecidableEq

/-- The `origin`/`destination` subdocuments `{latitude, longitude, address}`. -/
structure Endpoint where
  latitude : Option ℚ
  longitude : Option ℚ
  address : Option String
deriving DecidableEq

/-- A document of the `Tracking` mongoose model. -/
structure TrackingRecord where
  orderId : String
  deliveryType : String
  subscriptionId : Option String
  subscriptionDeliveryId : Option String
  driverId : String
  driverName : String
  driverPhone : String
  driverRating : ℚ
  status : String
  currentLocation : CurrentLocation
  route : Route
  origin : Endpoint
  destination : Endpoint
  history : List HistoryEntry
  lastUpdated : ℚ
  createdAt : ℚ
deriving DecidableEq

/-- A document of the `Subscription` mongoose model
(`src/models/subscription.js`); the OTP fields play no role here. -/
structure Subscription where
  id : String
  title : String
  plan : String
  status : String
  deliveryStatus : String
  lastDeliveredDate : Option ℚ
  timeSlot : String
  nextDelivery : Option ℚ
  deliveriesInCycle : ℚ
  addressId : Option String
  userId : String
deriving DecidableEq

/-- The persistent state the tracking router touches: the `Tracking`
collection and the `Subscription` collection. -/
structure Db where
  trackings : List TrackingRecord
  subscriptions : List Subscription
deriving DecidableEq

/-- `Tracking.findOne({orderId})`. -/
def findTracking (db : Db) (orderId : String) : Option TrackingRecord :=
  db.trackings.find? (fun t => t.orderId == orderId)

/-- `Subscription.findById(id)`. -/
def findSubscription (db : Db) (id : String) : Option Subscription :=
  db.subscriptions.find? (fun s => s.id == id)

/-- Persisting a tracking document (`tracking.save()` /
`findOneAndUpdate`): replace the document with the matching `orderId`. -/
def saveTracking (db : Db) (t : TrackingRecord) : Db :=
  { db with trackings := db.trackings.map (fun y => if y.orderId == t.orderId then t else y) }

/-- Persisting a subscription document (`subscription.save()`). -/
def saveSubscription (db : Db) (s : Subscription) : Db :=
  { db with subscriptions := db.subscriptions.map (fun y => if y.id == s.id then s else y) }

/-- The `enum` of `TrackingSchema.status`; mongoose validates it on `save`. -/
def validStatuses : List String :=
  ["assigned", "picking_up", "en_route", "nearby", "arrived", "delivered"]

/-- The error taxonomy of the router: 404 (`NotFound`) and the mongoose
enum-validation failure (`InvalidStatus`). -/
inductive TrackingError where
  | notFound
  | invalidStatus
deriving DecidableEq

/-- JavaScript `x || dflt` on an optional numeric value (absent and `0` are
falsy; for numbers `x || 0` equals `x.getD 0` since `0 || 0 = 0`). -/
def jsNumOr (o : Option ℚ) (dflt : ℚ) : ℚ :=
  match o with
  | none => dflt
  | some x => if x = 0 then dflt else x

/-- JavaScript truthiness of an optional numeric field (used by
`existingTracking.destination?.latitude && existingTracking.destination?.longitude`;
note `0` is falsy). -/
def truthy (o : Option ℚ) : Bool :=
  match o with
  | none => false
  | some x => x != 0

/-- `$push: {history: {$each: [entry], $slice: -100}}`: append, then keep
only the most recent 100 entries. -/
def pushSlice100 (h : List HistoryEntry) (e : HistoryEntry) : List HistoryEntry :=
  (h ++ [e]).drop ((h ++ [e]).length - 100)

/-- The pure per-record effect of `PATCH /:orderId/location`: the `$set` and
`$push` of the `findOneAndUpdate`, with the new ETA derived from the
remaining haversine distance at the assumed average city speed of 30 km/h
(`remainingSeconds = (remainingDist / 1000) / 30 * 3600`), or `null` when the
destination lacks (truthy) coordinates. -/
def recordUpdateLocation (dist : ℚ → ℚ → ℚ → ℚ → ℚ) (t : TrackingRecord)
    (latitude longitude : ℚ) (heading speed : Option ℚ) (now : ℚ) : TrackingRecord :=
  let newEta : Option ℚ :=
    if truthy t.destination.latitude && truthy t.destination.longitude then
      some (now + dist latitude longitude
        (t.destination.latitude.getD 0) (t.destination.longitude.getD 0)
        / 1000 / 30 * 3600 * 1000)
    else none
  { t with
    currentLocation := { t.currentLocation with
      latitude := some latitude
      longitude := some longitude
      heading := jsNumOr heading 0
      speed := jsNumOr speed 0 }
    route := { t.route with eta := newEta }
    lastUpdated := now
    history := pushSlice100 t.history ⟨latitude, longitude, now⟩ }

/-- `PATCH /:orderId/location`: 404 when no record exists, otherwise the
atomic update; returns the new state and the updated record. -/
def updateLocation (dist : ℚ → ℚ → ℚ → ℚ → ℚ) (db : Db) (orderId : String)
    (latitude longitude : ℚ) (heading speed : Option ℚ) (now : ℚ) :
    Db × Except TrackingError TrackingRecord :=
  match findTracking db orderId with
  | none => (db, .error .notFound)
  | some t =>
    let t' := recordUpdateLocation dist t latitude longitude heading speed now
    (saveTracking db t', .ok t')

/-- The fixed tracking-status → subscription-delivery-status table
(`statusMap`). -/
def statusMap (s : String) : Option String :=
  if s = "assigned" then some "packed"
  else if s = "picking_up" then some "packed"
  else if s = "en_route" then some "out_for_delivery"
  else if s = "nearby" then some "nearby"
  else if s = "arrived" then some "nearby"
  else if s = "delivered" then some "delivered"
  else none

/-- Days added to `nextDelivery`, keyed by the subscription's plan
(`switch (subscription.plan)` with `default: +1`). -/
def nextDeliveryDays (plan : String) : ℤ :=
  if plan = "daily" then 1
  else if plan = "alternate" then 2
  else if plan = "weekly" then 7
  else 1

/-- One calendar day in milliseconds. -/
def dayMs : ℚ := 86400000

/-- The body of the subscription sync: set `deliveryStatus` from the table
(`statusMap[status] || 'pending'`); on `delivered` additionally stamp
`lastDeliveredDate = now`, bump `deliveriesInCycle` and schedule
`nextDelivery` by the plan. -/
def syncSubscription (sub : Subscription) (status : String) (now : ℚ) : Subscription :=
  let subscriptionStatus := (statusMap status).getD "pending"
  let sub' := { sub with deliveryStatus := subscriptionStatus }
  if subscriptionStatus = "delivered" then
    { sub' with
      lastDeliveredDate := some now
      deliveriesInCycle := jsNumOr (some sub'.deliveriesInCycle) 0 + 1
      nextDelivery := some (now + (nextDeliveryDays sub'.plan : ℚ) * dayMs) }
  else sub'

/-- The `statusUpdate` event payload emitted to `order:<orderId>`:
`{orderId, status, timestamp}` — the identifier field the spec calls
`deliveryId` is named `orderId` in the code. -/
structure StatusUpdateEvent where
  orderId : String
  status : String
  timestamp : ℚ
deriving DecidableEq

/-- `PATCH /:orderId/status`: 404 when absent; an unknown status fails the
mongoose enum validation at `save()` before anything is persisted; otherwise
the record is saved, the subscription sync runs when
`tracking.deliveryType === 'subscription' || orderId.length === 24`
(a failed `findById` is non-fatal), and the `statusUpdate` event is
emitted. -/
def updateStatus (db : Db) (orderId status : String) (now : ℚ) :
    Db × Except TrackingError (TrackingRecord × StatusUpdateEvent) :=
  match findTracking db orderId with
  | none => (db, .error .notFound)
  | some tracking =>
    if status ∈ validStatuses then
      let tracking' := { tracking with status := status, lastUpdated := now }
      let db1 := saveTracking db tracking'
      let db2 :=
        if tracking'.deliveryType = "subscription" ∨ orderId.length = 24 then
          match findSubscription db1 orderId with
          | some subscription => saveSubscription db1 (syncSubscription subscription status now)
          | none => db1
        else db1
      (db2, .ok (tracking', ⟨orderId, status, now⟩))
    else (db, .error .invalidStatus)

/-- `new Tracking({orderId})` with the schema defaults. -/
def newTracking (orderId : String) (now : ℚ) : TrackingRecord where
  orderId := orderId
  deliveryType := "order"
  subscriptionId := none
  subscriptionDeliveryId := none
  driverId := "driver-1"
  driverName := "Rajesh Kumar"
  driverPhone := "+91-9876543210"
  driverRating := 49 / 10
  status := "assigned"
  currentLocation := ⟨none, none, 0, 0, 10⟩
  route := ⟨none, [], none, none, none⟩
  origin := ⟨none, none, none⟩
  destination := ⟨none, none, none⟩
  history := []
  lastUpdated := now
  createdAt := now

/-- A sequence of `updateLocation` calls on one record
(`(lat, lng, now)` triples; heading and speed omitted). -/
def applyLocationUpdates (dist : ℚ → ℚ → ℚ → ℚ → ℚ) (db : Db) (orderId : String) :
    List (ℚ × ℚ × ℚ) → Db
  | [] => db
  | u :: us =>
    applyLocationUpdates dist
      (updateLocation dist db orderId u.1 u.2.1 none none u.2.2).1 orderId us

/-- The record-level fold corresponding to `applyLocationUpdates`. -/
def recordLocationFold (dist : ℚ → ℚ → ℚ → ℚ → ℚ) (t : TrackingRecord)
    (us : List (ℚ × ℚ × ℚ)) : TrackingRecord :=
  us.foldl (fun acc u => recordUpdateLocation dist acc u.1 u.2.1 none none u.2.2) t

/-- The most recent 100 elements of a list (proof-side form of the
`$slice: -100` trim). -/
def takeLast100 {α : Type} (l : List α) : List α := l.drop (l.length - 100)

theorem pushSlice100_eq_takeLast100 (h : List HistoryEntry) (e : HistoryEntry) :
    pushSlice100 h e = takeLast100 (h ++ [e]) := rfl

theorem takeLast100_length_le {α : Type} (l : List α) : (takeLast100 l).length ≤ 100 := by
  rw [takeLast100, List.length_drop]
  omega

theorem takeLast100_of_le {α : Type} (l : List α) (h : l.length ≤ 100) :
    takeLast100 l = l := by
  rw [takeLast100, show l.length - 100 = 0 by omega, List.drop_zero]

theorem takeLast100_append_left {α : Type} (xs ys : List α) :
    takeLast100 (takeLast100 xs ++ ys) = takeLast100 (xs ++ ys) := by
  rw [takeLast100, takeLast100, takeLast100]
  have hk : xs.length - 100 ≤ xs.length := Nat.sub_le _ _
  rw [← List.drop_append_of_le_length hk, List.drop_drop]
  have hidx : xs.length - 100 + (((xs ++ ys).drop (xs.length - 100)).length - 100)
      = (xs ++ ys).length - 100 := by
    simp only [List.length_drop, List.length_append]
    omega
  rw [hidx]

theorem takeLast100_append_right {α : Type} (xs ys : List α) (h : 100 ≤ ys.length) :
    takeLast100 (xs ++ ys) = takeLast100 ys := by
  rw [takeLast100, takeLast100, List.length_append,
    show xs.length + ys.length - 100 = xs.length + (ys.length - 100) by omega]
  induction xs with
  | nil => simp
  | cons a t ih =>
    simpa [Nat.succ_add] using ih

/-- Replacing the found element in a keyed list: `find?` afterwards returns
the replacement. -/
theorem find?_replace {α : Type} (key : α → String) (k : String) (x' : α) (hk : key x' = k) :
    ∀ (l : List α) (x : α), l.find? (fun y => key y == k) = some x →
      (l.map (fun y => if key y == key x' then x' else y)).find? (fun y => key y == k)
        = some x' := by
  intro l
  induction l with
  | nil => intro x hx; simp [List.find?] at hx
  | cons a t ih =>
    intro x hx
    rw [List.map_cons]
    by_cases ha : key a = k
    · have hrep : (if key a == key x' then x' else a) = x' := by
        rw [if_pos]
        rw [ha, hk]
        exact beq_self_eq_true k
      rw [hrep]
      exact List.find?_cons_of_pos _ (by simp [hk])
    · have hrep : (if key a == key x' then x' else a) = a := by
        rw [if_neg]
        simp [hk]
        exact ha
      rw [hrep]
      rw [List.find?_cons_of_neg _ (by simp [ha])]
      rw [List.find?_cons_of_neg _ (by simp [ha])] at hx
      exact ih x hx

theorem findTracking_orderId (db : Db) (orderId : String) (t : TrackingRecord)
    (h : findTracking db orderId = some t) : t.orderId = orderId := by
  have := List.find?_some h
  simpa using this

theorem findSubscription_id (db : Db) (id : String) (s : Subscription)
    (h : findSubscription db id = some s) : s.id = id := by
  have := List.find?_some h
  simpa using this

theorem findTracking_save (db : Db) (orderId : String) (t t' : TrackingRecord)
    (h : findTracking db orderId = some t) (hid : t'.orderId = orderId) :
    findTracking (saveTracking db t') orderId = some t' := by
  rw [findTracking, saveTracking]
  exact find?_replace TrackingRecord.orderId orderId t' hid db.trackings t h

theorem findSubscription_save (db : Db) (id : String) (s s' : Subscription)
    (h : findSubscription db id = some s) (hid : s'.id = id) :
    findSubscription (saveSubscription db s') id = some s' := by
  rw [findSubscription, saveSubscription]
  exact find?_replace Subscription.id id s' hid db.subscriptions s h

theorem applyLocationUpdates_find (dist : ℚ → ℚ → ℚ → ℚ → ℚ) (orderId : String) :
    ∀ (us : List (ℚ × ℚ × ℚ)) (db : Db) (t : TrackingRecord),
      findTracking db orderId = some t →
      findTracking (applyLocationUpdates dist db orderId us) orderId
        = some (recordLocationFold dist t us) := by
  intro us
  induction us with
  | nil =>
    intro db t ht
    rw [applyLocationUpdates, recordLocationFold, List.foldl_nil]
    exact ht
  | cons u us ih =>
    intro db t ht
    rw [applyLocationUpdates, recordLocationFold, List.foldl_cons]
    have hstep : (updateLocation dist db orderId u.1 u.2.1 none none u.2.2).1
        = saveTracking db (recordUpdateLocation dist t u.1 u.2.1 none none u.2.2) := by
      rw [updateLocation, ht]
    rw [hstep]
    exact ih _ _ (findTracking_save db orderId t _ ht (findTracking_orderId db orderId t ht))

theorem recordLocationFold_history_le (dist : ℚ → ℚ → ℚ → ℚ → ℚ) :
    ∀ (us : List (ℚ × ℚ × ℚ)) (t : TrackingRecord), t.history.length ≤ 100 →
      (recordLocationFold dist t us).history
        = takeLast100 (t.history ++ us.map (fun u => (⟨u.1, u.2.1, u.2.2⟩ : HistoryEntry))) := by
  intro us
  induction us with
  | nil =>
    intro t hle
    rw [recordLocationFold, List.foldl_nil, List.map_nil, List.append_nil,
      takeLast100_of_le _ hle]
  | cons u us ih =>
    intro t hle
    rw [recordLocationFold, List.foldl_cons]
    have hstep : (recordUpdateLocation dist t u.1 u.2.1 none none u.2.2).history
        = takeLast100 (t.history ++ [⟨u.1, u.2.1, u.2.2⟩]) := rfl
    have hlen : (recordUpdateLocation dist t u.1 u.2.1 none none u.2.2).history.length ≤ 100 := by
      rw [hstep]
      exact takeLast100_length_le _
    have := ih (recordUpdateLocation dist t u.1 u.2.1 none none u.2.2) hlen
    rw [recordLocationFold] at this
    rw [this, hstep, takeLast100_append_left, List.append_assoc]
    rfl

theorem recordLocationFold_history (dist : ℚ → ℚ → ℚ → ℚ → ℚ)
    (us : List (ℚ × ℚ × ℚ)) (t : TrackingRecord) (h1 : 1 ≤ us.length) :
    (recordLocationFold dist t us).history
      = takeLast100 (t.history ++ us.map (fun u => (⟨u.1, u.2.1, u.2.2⟩ : HistoryEntry))) := by
  cases us with
  | nil => simp at h1
  | cons u us =>
    rw [recordLocationFold, List.foldl_cons]
    have hstep : (recordUpdateLocation dist t u.1 u.2.1 none none u.2.2).history
        = takeLast100 (t.history ++ [⟨u.1, u.2.1, u.2.2⟩]) := rfl
    have hlen : (recordUpdateLocation dist t u.1 u.2.1 none none u.2.2).history.length ≤ 100 := by
      rw [hstep]
      exact takeLast100_length_le _
    have := recordLocationFold_history_le dist us
      (recordUpdateLocation dist t u.1 u.2.1 none none u.2.2) hlen
    rw [recordLocationFold] at this
    rw [this, hstep, takeLast100_append_left, List.append_assoc]
    rfl

theorem jsNumOr_some_zero (x : ℚ) : jsNumOr (some x) 0 = x := by
  by_cases h : x = 0
  · rw [jsNumOr, if_pos h, h]
  · rw [jsNumOr, if_neg h]

/-! ### Concrete fixtures used by witnesses and counterexamples -/

/-- A fresh record whose destination has (truthy) coordinates. -/
def sampleDestTracking : TrackingRecord :=
  { newTracking "order-1" 0 with destination := ⟨some 5, some 6, none⟩ }

def sampleDb : Db := ⟨[sampleDestTracking], []⟩

/-- A fresh record with the schema defaults (no destination coordinates). -/
def bareTracking : TrackingRecord := newTracking "order-2" 0

def bareDb : Db := ⟨[bareTracking], []⟩

/-- A subscription-kind tracking record. -/
def subTracking : TrackingRecord :=
  { newTracking "sub-1" 0 with deliveryType := "subscription" }

def sampleSub : Subscription where
  id := "sub-1"
  title := "milk"
  plan := "weekly"
  status := "active"
  deliveryStatus := "packed"
  lastDeliveredDate := none
  timeSlot := "8-10"
  nextDelivery := none
  deliveriesInCycle := 3
  addressId := none
  userId := "u1"

def subDb : Db := ⟨[subTracking], [sampleSub]⟩

/-- A 24-character identifier (the shape of a Mongo ObjectId), used by a
tracking record of kind `order` that nevertheless resolves to a
subscription. -/
def cxOrderId : String := "aaaabbbbccccddddeeeeff11"

def cxSub : Subscription where
  id := cxOrderId
  title := "milk"
  plan := "daily"
  status := "active"
  deliveryStatus := "pending"
  lastDeliveredDate := none
  timeSlot := "8-10"
  nextDelivery := none
  deliveriesInCycle := 0
  addressId := none
  userId := "u1"

def cxDb : Db := ⟨[newTracking cxOrderId 0], [cxSub]⟩

/-- 101 location updates at increasing timestamps. -/
def usList : List (ℚ × ℚ × ℚ) :=
  (List.range 101).map (fun i : ℕ => ((i : ℚ), (i : ℚ), (i : ℚ)))

end HF

/-! ## Claims -/

namespace HF

/-- C2 counterexample: the claim quantifies over every finite sequence of
points whose coordinates are multiples of `1e-5`, but JavaScript's bitwise
operators work on 32-bit integers, so `encodeNumber` wraps once the scaled
coordinate reaches `2^30`.  The single point with `lat = 2^30 / 1e5 =
10737.41824` (a 5-decimal-place value) encodes to the two characters
`[63, 63]` (`"??"`), which decode back to `(0, 0)`: the latitude comes back
off by more than ten thousand degrees, not within `1e-5`. -/
theorem C2_roundtrip_counterexample :
    (∃ a : ℤ, ((1073741824 : ℚ) / 100000) = (a : ℚ) / 100000) ∧
    encodePolyline [⟨1073741824 / 100000, 0⟩] = [63, 63] ∧
    decodePolyline (encodePolyline [⟨1073741824 / 100000, 0⟩]) = [⟨0, 0⟩] ∧
    ¬ |(0 : ℚ) - 1073741824 / 100000| ≤ 1 / 100000 := by
  have hL1 : encodeNumberLoop (-2147483648) = [63] := by
    rw [encodeNumberLoop, dif_neg (by decide)]
    decide
  have hL0 : encodeNumberLoop 0 = [63] := by
    rw [encodeNumberLoop, dif_neg (by decide)]
    decide
  have hEN1 : encodeNumber 1073741824 = [63] := by
    rw [encodeNumber]
    rw [show jsShl 1073741824 1 = -2147483648 from by decide]
    rw [if_neg (by decide)]
    exact hL1
  have hEN0 : encodeNumber 0 = [63] := by
    rw [encodeNumber]
    rw [show jsShl 0 1 = 0 from by decide]
    rw [if_neg (by decide)]
    exact hL0
  have hr1 : jsRound ((1073741824 : ℚ) / 100000 * 100000) = 1073741824 := by
    rw [show ((1073741824 : ℚ) / 100000 * 100000) = ((1073741824 : ℤ) : ℚ) by norm_num,
      jsRound_intCast]
  have hr0 : jsRound ((0 : ℚ) * 100000) = 0 := by
    rw [show ((0 : ℚ) * 100000) = ((0 : ℤ) : ℚ) by norm_num, jsRound_intCast]
  have hE : encodePolyline [⟨1073741824 / 100000, 0⟩] = [63, 63] := by
    rw [encodePolyline, encodePolyAux, encodePolyAux]
    simp only [hr1, hr0]
    norm_num [hEN1, hEN0]
  have hD : decodePolyline [63, 63] = [⟨0, 0⟩] := by
    rw [decodePolyline, decodePolyAux_cons]
    rw [show decodeChunk ([63, 63] : List ℕ) 0 0 = (0, [63]) from by decide]
    rw [show decodeChunk ([63] : List ℕ) 0 0 = (0, []) from by decide]
    rw [show decodeDelta 0 = 0 from by decide]
    norm_num
    rw [decodePolyAux]
  refine ⟨⟨1073741824, rfl⟩, hE, ?_, ?_⟩
  · rw [hE, hD]
  · rw [abs_sub_comm]
    rw [abs_of_nonneg (by norm_num)]
    norm_num

/-- C2 (amended): for every finite sequence of points whose coordinates are
rounded to 5 decimal places **and whose scaled values `round(coord·1e5)` stay
below `2^29` in magnitude** (true of every real latitude/longitude, which is
bounded by 180), `decodePolyline (encodePolyline points)` has the same length
and every coordinate differs from the input by at most `1e-5` (in fact the
points come back exactly). -/
theorem C2_roundtrip (points : List Pt)
    (h5 : ∀ p ∈ points,
      (∃ a : ℤ, a.natAbs < 2 ^ 29 ∧ p.lat = (a : ℚ) / 100000) ∧
      (∃ b : ℤ, b.natAbs < 2 ^ 29 ∧ p.lng = (b : ℚ) / 100000)) :
    (decodePolyline (encodePolyline points)).length = points.length ∧
    ∀ pr ∈ (decodePolyline (encodePolyline points)).zip points,
      |pr.1.lat - pr.2.lat| ≤ 1 / 100000 ∧ |pr.1.lng - pr.2.lng| ≤ 1 / 100000 := by
  have hid := decode_encode_id points h5
  constructor
  · rw [hid]
  · rw [hid]
    intro pr hpr
    have := mem_zip_self points pr hpr
    rw [this]
    norm_num

/-- C2 witness: the amended round-trip theorem applied to a concrete
one-point list. -/
theorem C2_roundtrip_witness :
    (decodePolyline (encodePolyline [⟨0, 1 / 100000⟩])).length
        = ([⟨0, 1 / 100000⟩] : List Pt).length ∧
    ∀ pr ∈ (decodePolyline (encodePolyline [⟨0, 1 / 100000⟩])).zip
        ([⟨0, 1 / 100000⟩] : List Pt),
      |pr.1.lat - pr.2.lat| ≤ 1 / 100000 ∧ |pr.1.lng - pr.2.lng| ≤ 1 / 100000 :=
  C2_roundtrip [⟨0, 1 / 100000⟩] (by
    intro p hp
    have hp' : p = (⟨0, 1 / 100000⟩ : Pt) := by simpa using hp
    rw [hp']
    exact ⟨⟨0, by decide, by norm_num⟩, ⟨1, by decide, by norm_num⟩⟩)

/-- C9: decoding always terminates and stops at the string's end — with fuel
equal to the input length (one unit per outer-loop iteration, each of which
consumes at least one character) the fuelled decoder never runs out, and the
empty string decodes to the empty sequence. -/
theorem C9_decode_terminates :
    decodePolyline [] = [] ∧
    ∀ (fuel : ℕ) (codes : List ℕ), codes.length ≤ fuel →
      decodePolyFuel fuel codes 0 0 = some (decodePolyline codes) := by
  have key : ∀ (n : ℕ) (codes : List ℕ), codes.length ≤ n →
      ∀ (fuel : ℕ), codes.length ≤ fuel → ∀ lat lng : ℤ,
      decodePolyFuel fuel codes lat lng = some (decodePolyAux codes lat lng) := by
    intro n
    induction n with
    | zero =>
      intro codes h fuel _ lat lng
      have hc : codes = [] := List.length_eq_zero.mp (Nat.le_zero.mp h)
      subst hc
      cases fuel <;> simp [decodePolyFuel, decodePolyAux]
    | succ n ih =>
      intro codes h fuel hf lat lng
      match codes, fuel with
      | [], _ => cases fuel <;> simp [decodePolyFuel, decodePolyAux]
      | c :: cs, 0 => simp at hf
      | c :: cs, fuel + 1 =>
        have hlen : (decodeChunk (decodeChunk (c :: cs) 0 0).2 0 0).2.length ≤ cs.length :=
          le_trans (decodeChunk_length_le _ _ _) (decodeChunk_cons_length _ _ _ _)
        simp only [decodePolyFuel]
        rw [ih _ (by simp at h; omega) fuel (by simp at hf; omega) _ _]
        rw [decodePolyAux_cons]
        rfl
  refine ⟨?_, fun fuel codes h => key codes.length codes (le_refl _) fuel h 0 0⟩
  rw [decodePolyline, decodePolyAux]

/-- C9 witness: the termination bound applied at a concrete two-character
input. -/
theorem C9_decode_terminates_witness :
    decodePolyFuel 2 [63, 63] 0 0 = some (decodePolyline [63, 63]) :=
  C9_decode_terminates.2 2 [63, 63] (by decide)

/-- C3 counterexample: the final destination is appended only when the last
generated point is more than one metre away from it, so when the distance
function can return `0` for two distinct points the densified route can end
away from the final point.  The exact haversine distance does exactly that:
for `(0, 0)` and `(0, 360)` the longitude difference is `360°`, so
`sin(Δlng/2 · π/180) = sin(π) = 0` and the distance is `0`; the constant-zero
distance function used here agrees with it on this route.  With that route,
speed `30 km/h` and interval `1000 ms`, the densified sequence is `[(0, 0)]`,
whose last element is not the route's final point `(0, 360)`. -/
theorem C3_densify_endpoint_counterexample :
    2 ≤ ([⟨0, 0⟩, ⟨0, 360⟩] : List Pt).length ∧ (0 : ℚ) < 30 ∧ (0 : ℚ) < 1000 ∧
    generateHighResolutionRoute (fun _ _ _ _ => 0) [⟨0, 0⟩, ⟨0, 360⟩] 30 1000
      = [⟨0, 0⟩] ∧
    (generateHighResolutionRoute (fun _ _ _ _ => 0) [⟨0, 0⟩, ⟨0, 360⟩] 30 1000).getLast?
      ≠ ([⟨0, 0⟩, ⟨0, 360⟩] : List Pt).getLast? := by
  have hnum : numPoints (fun _ _ _ _ => 0) [⟨0, 0⟩, ⟨0, 360⟩] 30 1000 = 0 := by
    rw [numPoints, jsCeil]
    norm_num [routeDistance]
  have hhr : highResPoints (fun _ _ _ _ => 0) [⟨0, 0⟩, ⟨0, 360⟩] 30 1000 = [⟨0, 0⟩] := by
    rw [highResPoints, hnum]
    norm_num [getPointAtDistance, getPointAtDistanceAux, interpolatePoint,
      List.range_succ, distancePerUpdate]
    simp only [List.filterMap_cons, List.filterMap_nil]
    norm_num
  have hgen : generateHighResolutionRoute (fun _ _ _ _ => 0) [⟨0, 0⟩, ⟨0, 360⟩] 30 1000
      = [⟨0, 0⟩] := by
    rw [generateHighResolutionRoute, if_neg (by norm_num), hhr]
    norm_num
  refine ⟨by norm_num, by norm_num, by norm_num, hgen, ?_⟩
  rw [hgen]
  decide

/-- C3 (amended): for every route of at least 2 points, `speedKmh > 0` and
`intervalMs > 0`, **and every distance function that is nonnegative and
vanishes only between identical points** (true of the haversine distance on
the coordinate ranges the tracker serves, i.e. away from poles and longitude
wrap-around), the last element of the densified sequence equals the route's
final point exactly: either the generated endpoint already is the final point
(the target arc length `numPoints·step` reaches or exceeds the total route
length, where the scan returns the final point exactly), or it lies more than
one metre away and the final point is appended. -/
theorem C3_densify_endpoint (dist : ℚ → ℚ → ℚ → ℚ → ℚ) (routePoints : List Pt)
    (speedKmh updateIntervalMs : ℚ)
    (hd : ∀ a b c d, 0 ≤ dist a b c d)
    (hsep : ∀ p q : Pt, dist p.lat p.lng q.lat q.lng = 0 → p = q)
    (hlen : 2 ≤ routePoints.length) (hv : 0 < speedKmh) (ht : 0 < updateIntervalMs) :
    (generateHighResolutionRoute dist routePoints speedKmh updateIntervalMs).getLast?
      = routePoints.getLast? := by
  obtain ⟨p, rest, rfl⟩ : ∃ p rest, routePoints = p :: rest := by
    cases routePoints with
    | nil => simp at hlen
    | cons a b => exact ⟨a, b, rfl⟩
  have hn2 : ¬ (p :: rest).length < 2 := by
    simp only [List.length_cons] at hlen ⊢
    omega
  rw [generateHighResolutionRoute, if_neg hn2]
  have hdpu0 : 0 < distancePerUpdate speedKmh updateIntervalMs := by
    rw [distancePerUpdate]
    positivity
  have htot0 : 0 ≤ routeDistance dist (p :: rest) := routeDistance_nonneg dist hd _
  have hN0 : 0 ≤ numPoints dist (p :: rest) speedKmh updateIntervalMs := by
    rw [numPoints, jsCeil]
    exact Int.ceil_nonneg (div_nonneg htot0 (le_of_lt hdpu0))
  have hNt : (numPoints dist (p :: rest) speedKmh updateIntervalMs + 1).toNat
      = (numPoints dist (p :: rest) speedKmh updateIntervalMs).toNat + 1 := by omega
  have hhr : highResPoints dist (p :: rest) speedKmh updateIntervalMs
      = (List.range ((numPoints dist (p :: rest) speedKmh updateIntervalMs).toNat + 1)).map
        (fun i : ℕ => getPointAtDistanceAux dist
          ((i : ℚ) * distancePerUpdate speedKmh updateIntervalMs) p rest) := by
    rw [highResPoints, hNt]
    exact filterMap_some_map _ _
  have hlast : (highResPoints dist (p :: rest) speedKmh updateIntervalMs).getLast?
      = some (getPointAtDistanceAux dist
          (((numPoints dist (p :: rest) speedKmh updateIntervalMs).toNat : ℚ)
            * distancePerUpdate speedKmh updateIntervalMs) p rest) := by
    rw [hhr, List.range_succ, List.map_append]
    simp
  have hcast : (((numPoints dist (p :: rest) speedKmh updateIntervalMs).toNat : ℕ) : ℚ)
      = ((numPoints dist (p :: rest) speedKmh updateIntervalMs : ℤ) : ℚ) := by
    rw [← Int.toNat_of_nonneg hN0]
    push_cast
    rw [Int.toNat_of_nonneg hN0]
  have hceil : routeDistance dist (p :: rest) / distancePerUpdate speedKmh updateIntervalMs
      ≤ ((numPoints dist (p :: rest) speedKmh updateIntervalMs : ℤ) : ℚ) := by
    rw [numPoints, jsCeil]
    exact_mod_cast Int.le_ceil _
  have hNd : routeDistance dist (p :: rest)
      ≤ ((numPoints dist (p :: rest) speedKmh updateIntervalMs : ℤ) : ℚ)
        * distancePerUpdate speedKmh updateIntervalMs := by
    have := mul_le_mul_of_nonneg_right hceil (le_of_lt hdpu0)
    rwa [div_mul_cancel₀ _ (ne_of_gt hdpu0)] at this
  have hgenlast : getPointAtDistanceAux dist
      (((numPoints dist (p :: rest) speedKmh updateIntervalMs : ℤ) : ℚ)
        * distancePerUpdate speedKmh updateIntervalMs) p rest
      = rest.getLastD p := by
    rcases eq_or_lt_of_le hNd with heq | hlt
    · rw [← heq]
      exact getPointAtDistanceAux_eq dist hd hsep rest p
    · exact getPointAtDistanceAux_gt dist hd rest p _ hlt
  rw [hlast, hcast, hgenlast]
  have hlastD : (p :: rest).getLast?.getD (⟨0, 0⟩ : Pt) = rest.getLastD p := by
    rw [getLast?_cons_getLastD]
    rfl
  rw [hlastD, getLast?_cons_getLastD]
  split
  · rw [List.getLast?_concat]
  · split
    · rw [List.getLast?_concat]
    · rw [hlast, hcast, hgenlast]

/-- C3 witness: the amended endpoint theorem applied to the taxicab distance
(which is nonnegative and separating) on a concrete two-point route. -/
theorem C3_densify_endpoint_witness :
    (generateHighResolutionRoute
        (fun a b c d => |c - a| + |d - b|) [⟨0, 0⟩, ⟨3, 4⟩] 30 1000).getLast?
      = ([⟨0, 0⟩, ⟨3, 4⟩] : List Pt).getLast? :=
  C3_densify_endpoint (fun a b c d => |c - a| + |d - b|) [⟨0, 0⟩, ⟨3, 4⟩] 30 1000
    (fun a b c d => by positivity)
    (fun p q h => by
      have h' : |q.lat - p.lat| + |q.lng - p.lng| = 0 := h
      have h1 : 0 ≤ |q.lat - p.lat| := abs_nonneg _
      have h2 : 0 ≤ |q.lng - p.lng| := abs_nonneg _
      have ha := abs_eq_zero.mp (show |q.lat - p.lat| = 0 by linarith)
      have hb := abs_eq_zero.mp (show |q.lng - p.lng| = 0 by linarith)
      ext
      · linarith
      · linarith)
    (by norm_num) (by norm_num) (by norm_num)

/-- C1 counterexample: the sync guard is `deliveryType === 'subscription' ||
orderId.length === 24`, so an `updateStatus` call on a record whose
`deliveryType` is `'order'` but whose identifier is 24 characters long and
resolves to a subscription does mutate that SubscriptionSnapshot:
`en_route` flips its `deliveryStatus` from `pending` to `out_for_delivery`. -/
theorem C1_subscription_sync_counterexample :
    cxOrderId.length = 24 ∧
    (findTracking cxDb cxOrderId).map (fun t => t.deliveryType) = some "order" ∧
    cxDb.subscriptions.map (fun s => s.deliveryStatus) = ["pending"] ∧
    ((updateStatus cxDb cxOrderId "en_route" 0).1).subscriptions.map (fun s => s.deliveryStatus)
      = ["out_for_delivery"] := by
  refine ⟨by decide, by decide, by decide, by decide⟩

/-- C1 (amended): the subscription-sync policy inside `updateStatus` runs
when the record is of kind `subscription` **or the identifier is 24
characters long** (a Mongo-ObjectId heuristic).  Hence: for every
`updateStatus` call on a tracking record whose `deliveryType` is `'order'`
**and whose identifier's length is not 24**, no SubscriptionSnapshot is
mutated — the subscription collection is unchanged. -/
theorem C1_order_updateStatus_no_subscription_mutation
    (db : Db) (orderId status : String) (now : ℚ) (t : TrackingRecord)
    (ht : findTracking db orderId = some t)
    (hord : t.deliveryType = "order")
    (hlen : orderId.length ≠ 24) :
    (updateStatus db orderId status now).1.subscriptions = db.subscriptions := by
  simp only [updateStatus, ht]
  by_cases hv : status ∈ validStatuses
  · rw [if_pos hv]
    have hguard : ¬(({ t with status := status, lastUpdated := now }
        : TrackingRecord).deliveryType = "subscription" ∨ orderId.length = 24) := by
      push_neg
      refine ⟨?_, hlen⟩
      show t.deliveryType ≠ "subscription"
      rw [hord]
      decide
    rw [if_neg hguard]
    rfl
  · rw [if_neg hv]

/-- C1 witness: an `updateStatus` on an order-kind record with a short
identifier leaves the subscriptions untouched. -/
theorem C1_order_updateStatus_no_subscription_mutation_witness :
    (updateStatus bareDb "order-2" "en_route" 0).1.subscriptions = bareDb.subscriptions :=
  C1_order_updateStatus_no_subscription_mutation bareDb "order-2" "en_route" 0 bareTracking
    (by rfl) (by rfl) (by decide)

/-- C4: the history of a tracking record is bounded to the 100 most recent
entries, oldest evicted first: after any sequence of at least 101
`updateLocation` calls on one record, the stored history is exactly the
entries of the last 100 calls, in call (chronological) order, and its length
is 100. -/
theorem C4_history_bound (dist : ℚ → ℚ → ℚ → ℚ → ℚ) (db : Db) (orderId : String)
    (t : TrackingRecord) (us : List (ℚ × ℚ × ℚ))
    (ht : findTracking db orderId = some t) (hn : 101 ≤ us.length) :
    (findTracking (applyLocationUpdates dist db orderId us) orderId).map
        (fun r => r.history)
      = some ((us.map (fun u => (⟨u.1, u.2.1, u.2.2⟩ : HistoryEntry))).drop (us.length - 100)) ∧
    (findTracking (applyLocationUpdates dist db orderId us) orderId).map
        (fun r => r.history.length) = some 100 := by
  rw [applyLocationUpdates_find dist orderId us db t ht]
  have hh := recordLocationFold_history dist us t (by omega)
  have hright : takeLast100 (t.history ++ us.map (fun u => (⟨u.1, u.2.1, u.2.2⟩ : HistoryEntry)))
      = (us.map (fun u => (⟨u.1, u.2.1, u.2.2⟩ : HistoryEntry))).drop (us.length - 100) := by
    rw [takeLast100_append_right _ _ (by rw [List.length_map]; omega)]
    rw [takeLast100, List.length_map]
  constructor
  · simp only [Option.map_some']
    rw [hh, hright]
  · simp only [Option.map_some']
    rw [hh, hright]
    have hlen : ((us.map (fun u => (⟨u.1, u.2.1, u.2.2⟩ : HistoryEntry))).drop
        (us.length - 100)).length = 100 := by
      rw [List.length_drop, List.length_map]
      omega
    rw [hlen]

/-- C4 witness: 101 concrete updates on a fresh record. -/
theorem C4_history_bound_witness :
    (findTracking (applyLocationUpdates (fun _ _ _ _ => 0) bareDb "order-2" usList)
        "order-2").map (fun r => r.history)
      = some ((usList.map (fun u => (⟨u.1, u.2.1, u.2.2⟩ : HistoryEntry))).drop
          (usList.length - 100)) ∧
    (findTracking (applyLocationUpdates (fun _ _ _ _ => 0) bareDb "order-2" usList)
        "order-2").map (fun r => r.history.length) = some 100 :=
  C4_history_bound (fun _ _ _ _ => 0) bareDb "order-2" bareTracking usList
    (by rfl) (by simp [usList])

/-- C5: on every successful `updateLocation` whose destination has truthy
latitude and longitude, the stored `route.eta` is `now + (d / 1000) / 30 *
3600` seconds (here in milliseconds), where `d` is the haversine distance
from the reported position to the destination — the fixed assumed average
speed 30 km/h, independent of the reported instantaneous `speed` argument
(which does not occur in the formula). -/
theorem C5_eta_formula (dist : ℚ → ℚ → ℚ → ℚ → ℚ) (db : Db) (orderId : String)
    (latitude longitude : ℚ) (heading speed : Option ℚ) (now : ℚ) (t : TrackingRecord)
    (ht : findTracking db orderId = some t)
    (hlat : truthy t.destination.latitude = true)
    (hlng : truthy t.destination.longitude = true) :
    (updateLocation dist db orderId latitude longitude heading speed now).2
      = .ok (recordUpdateLocation dist t latitude longitude heading speed now) ∧
    (recordUpdateLocation dist t latitude longitude heading speed now).route.eta
      = some (now + dist latitude longitude (t.destination.latitude.getD 0)
          (t.destination.longitude.getD 0) / 1000 / 30 * 3600 * 1000) := by
  constructor
  · simp [updateLocation, ht]
  · simp [recordUpdateLocation, hlat, hlng]

/-- C5 witness: the ETA formula on a concrete record with destination
`(5, 6)`. -/
theorem C5_eta_formula_witness :
    (updateLocation (fun _ _ _ _ => 0) sampleDb "order-1" 1 2 none none 1000).2
      = .ok (recordUpdateLocation (fun _ _ _ _ => 0) sampleDestTracking 1 2 none none 1000) ∧
    (recordUpdateLocation (fun _ _ _ _ => 0) sampleDestTracking 1 2 none none 1000).route.eta
      = some (1000 + (fun _ _ _ _ => (0 : ℚ)) 1 2
          (sampleDestTracking.destination.latitude.getD 0)
          (sampleDestTracking.destination.longitude.getD 0) / 1000 / 30 * 3600 * 1000) :=
  C5_eta_formula (fun _ _ _ _ => 0) sampleDb "order-1" 1 2 none none 1000
    sampleDestTracking (by rfl) (by rfl) (by rfl)

/-- C6: `updateStatus(_, 'delivered')` on a subscription-kind record whose
subscription is found sets `lastDeliveredDate` to now, increments
`deliveriesInCycle` by exactly 1 (`(x || 0) + 1` with the schema default 0),
and sets `nextDelivery` to now plus exactly 1, 2, or 7 days for plans
`daily`, `alternate`, `weekly` (1 day for any other plan). -/
theorem C6_delivered_sync (db : Db) (orderId : String) (now : ℚ)
    (t : TrackingRecord) (sub : Subscription)
    (ht : findTracking db orderId = some t)
    (hkind : t.deliveryType = "subscription")
    (hs : findSubscription db orderId = some sub) :
    findSubscription (updateStatus db orderId "delivered" now).1 orderId
      = some { sub with
          deliveryStatus := "delivered"
          lastDeliveredDate := some now
          deliveriesInCycle := sub.deliveriesInCycle + 1
          nextDelivery := some (now + (nextDeliveryDays sub.plan : ℚ) * dayMs) } ∧
    nextDeliveryDays "daily" = 1 ∧
    nextDeliveryDays "alternate" = 2 ∧
    nextDeliveryDays "weekly" = 7 ∧
    ∀ p : String, p ∉ (["daily", "alternate", "weekly"] : List String) →
      nextDeliveryDays p = 1 := by
  refine ⟨?_, by decide, by decide, by decide, ?_⟩
  · simp only [updateStatus, ht, if_pos (show "delivered" ∈ validStatuses by decide)]
    have hguard : ({ t with status := "delivered", lastUpdated := now }
        : TrackingRecord).deliveryType = "subscription" ∨ orderId.length = 24 :=
      Or.inl hkind
    rw [if_pos hguard]
    have hs1 : findSubscription
        (saveTracking db { t with status := "delivered", lastUpdated := now }) orderId
        = some sub := hs
    simp only [hs1]
    have hsync : syncSubscription sub "delivered" now
        = { sub with
            deliveryStatus := "delivered"
            lastDeliveredDate := some now
            deliveriesInCycle := sub.deliveriesInCycle + 1
            nextDelivery := some (now + (nextDeliveryDays sub.plan : ℚ) * dayMs) } := by
      rw [syncSubscription,
        show statusMap "delivered" = some "delivered" from by decide]
      rw [show (some "delivered").getD "pending" = "delivered" from rfl]
      rw [if_pos rfl, jsNumOr_some_zero]
    rw [hsync]
    exact findSubscription_save _ orderId sub _ hs1 (findSubscription_id db orderId sub hs)
  · intro p hp
    simp only [List.mem_cons, List.not_mem_nil, or_false, not_or] at hp
    obtain ⟨ha, hb, hc⟩ := hp
    rw [nextDeliveryDays, if_neg ha, if_neg hb, if_neg hc]

/-- C6 witness: plan `weekly`, `now = 2024-01-10T00:00:00Z`; the subscription
comes back `delivered` with `nextDelivery = now + 7 days` (2024-01-17). -/
theorem C6_delivered_sync_witness :
    findSubscription (updateStatus subDb "sub-1" "delivered" 1704844800000).1 "sub-1"
      = some { sampleSub with
          deliveryStatus := "delivered"
          lastDeliveredDate := some 1704844800000
          deliveriesInCycle := sampleSub.deliveriesInCycle + 1
          nextDelivery := some (1704844800000 + (nextDeliveryDays sampleSub.plan : ℚ) * dayMs) } ∧
    nextDeliveryDays "daily" = 1 ∧
    nextDeliveryDays "alternate" = 2 ∧
    nextDeliveryDays "weekly" = 7 ∧
    ∀ p : String, p ∉ (["daily", "alternate", "weekly"] : List String) →
      nextDeliveryDays p = 1 :=
  C6_delivered_sync subDb "sub-1" 1704844800000 subTracking sampleSub
    (by rfl) (by rfl) (by rfl)

/-- C7: every successful `updateStatus` emits a `statusUpdate` event whose
payload carries exactly the fields `orderId` (the updated delivery's
identifier, which the spec names `deliveryId`), `status` (the newly set
status) and `timestamp` — the three fields of `StatusUpdateEvent`. -/
theorem C7_statusUpdate_event (db : Db) (orderId status : String) (now : ℚ)
    (t : TrackingRecord)
    (ht : findTracking db orderId = some t) (hv : status ∈ validStatuses) :
    (updateStatus db orderId status now).2
      = .ok ({ t with status := status, lastUpdated := now },
          { orderId := orderId, status := status, timestamp := now }) := by
  simp only [updateStatus, ht, if_pos hv]

/-- C7 witness: the event emitted for a concrete `arrived` update. -/
theorem C7_statusUpdate_event_witness :
    (updateStatus sampleDb "order-1" "arrived" 7).2
      = .ok ({ sampleDestTracking with status := "arrived", lastUpdated := 7 },
          { orderId := "order-1", status := "arrived", timestamp := 7 }) :=
  C7_statusUpdate_event sampleDb "order-1" "arrived" 7 sampleDestTracking
    (by rfl) (by decide)

/-- C8: `updateStatus` on an existing record fails with `InvalidStatus` for
every status outside the six defined values, and the rejection happens
before mutation: the store is returned unchanged (mongoose enum validation
aborts `save()`, so nothing is persisted, no sync runs and no event is
emitted). -/
theorem C8_invalidStatus_rejected (db : Db) (orderId status : String) (now : ℚ)
    (t : TrackingRecord)
    (ht : findTracking db orderId = some t) (hv : status ∉ validStatuses) :
    updateStatus db orderId status now = (db, .error .invalidStatus) := by
  simp only [updateStatus, ht, if_neg hv]

/-- C8 witness: a rejected `flying` status leaves the store unchanged. -/
theorem C8_invalidStatus_rejected_witness :
    updateStatus sampleDb "order-1" "flying" 7 = (sampleDb, .error .invalidStatus) :=
  C8_invalidStatus_rejected sampleDb "order-1" "flying" 7 sampleDestTracking
    (by rfl) (by decide)

/-- C10: `updateLocation` on an existing record whose destination lacks
truthy latitude or longitude still succeeds, updates `currentLocation`,
`lastUpdated` and `history`, but `$set`s `route.eta` to `null`, erasing any
previously stored ETA rather than leaving it unchanged. -/
theorem C10_eta_erased (dist : ℚ → ℚ → ℚ → ℚ → ℚ) (db : Db) (orderId : String)
    (latitude longitude : ℚ) (heading speed : Option ℚ) (now : ℚ) (t : TrackingRecord)
    (ht : findTracking db orderId = some t)
    (hmiss : (truthy t.destination.latitude && truthy t.destination.longitude) = false) :
    (updateLocation dist db orderId latitude longitude heading speed now).1
      = saveTracking db (recordUpdateLocation dist t latitude longitude heading speed now) ∧
    (updateLocation dist db orderId latitude longitude heading speed now).2
      = .ok (recordUpdateLocation dist t latitude longitude heading speed now) ∧
    (recordUpdateLocation dist t latitude longitude heading speed now).route.eta = none ∧
    (recordUpdateLocation dist t latitude longitude heading speed now).currentLocation.latitude
      = some latitude ∧
    (recordUpdateLocation dist t latitude longitude heading speed now).currentLocation.longitude
      = some longitude ∧
    (recordUpdateLocation dist t latitude longitude heading speed now).lastUpdated = now ∧
    (recordUpdateLocation dist t latitude longitude heading speed now).history
      = pushSlice100 t.history ⟨latitude, longitude, now⟩ := by
  refine ⟨by simp [updateLocation, ht], by simp [updateLocation, ht], ?_, rfl, rfl, rfl, rfl⟩
  simp [recordUpdateLocation, hmiss]

/-- C10 witness: a record created with the schema defaults has no destination
coordinates; its ETA comes back `null` while the location still updates. -/
theorem C10_eta_erased_witness :
    (updateLocation (fun _ _ _ _ => 0) bareDb "order-2" 1 2 none none 9).1
      = saveTracking bareDb (recordUpdateLocation (fun _ _ _ _ => 0) bareTracking 1 2 none none 9) ∧
    (updateLocation (fun _ _ _ _ => 0) bareDb "order-2" 1 2 none none 9).2
      = .ok (recordUpdateLocation (fun _ _ _ _ => 0) bareTracking 1 2 none none 9) ∧
    (recordUpdateLocation (fun _ _ _ _ => 0) bareTracking 1 2 none none 9).route.eta = none ∧
    (recordUpdateLocation (fun _ _ _ _ => 0) bareTracking 1 2 none none 9).currentLocation.latitude
      = some 1 ∧
    (recordUpdateLocation (fun _ _ _ _ => 0) bareTracking 1 2 none none 9).currentLocation.longitude
      = some 2 ∧
    (recordUpdateLocation (fun _ _ _ _ => 0) bareTracking 1 2 none none 9).lastUpdated = 9 ∧
    (recordUpdateLocation (fun _ _ _ _ => 0) bareTracking 1 2 none none 9).history
      = pushSlice100 bareTracking.history ⟨1, 2, 9⟩ :=
  C10_eta_erased (fun _ _ _ _ => 0) bareDb "order-2" 1 2 none none 9 bareTracking
    (by rfl) (by rfl)

end HF
